import Mathlib

/-!
Verification development for the bitcoinjs-lib-wrapper library (src/src/index.js).

The wrapper code in src/src/index.js is embedded shallowly below.  Byte buffers
become `List Nat`; JavaScript strings that are only passed around opaquely
(addresses, WIF strings, seeds) become the opaque token type `JsStr`; strings
that the code inspects character by character (hex renderings, derivation
paths) become `List Char`.  The cryptographic and encoding primitives that the
design document declares out of scope (SHA-256, RIPEMD-160 based HASH160,
secp256k1 key handling, Base58Check and Bech32 codecs, BIP32 child derivation)
are injected through the `Prims` bundle, with their documented contracts stated
as separate propositions; every theorem that needs a contract takes it as a
hypothesis and is instantiated on an executable bundle in its witness.
-/

/-- Byte buffers (Node Buffer): a list of byte values. -/
abbrev Bytes : Type := List Nat

/-- Opaque JavaScript strings (addresses, WIF strings, seeds): token lists. -/
abbrev JsStr : Type := List Nat

/-- The apostrophe character used by hardened path segments. -/
def aposChar : Char := Char.ofNat 39

/-- Decimal rendering of a natural number with explicit fuel, matching the
JavaScript number-to-string conversion used by template literals. -/
def natDecChars : Nat → Nat → List Char
  | 0, _ => []
  | f + 1, n =>
    if n < 10 then [Nat.digitChar n]
    else natDecChars f (n / 10) ++ [Nat.digitChar (n % 10)]

/-- Decimal rendering of a natural number, as a character list. -/
def decStr (n : Nat) : List Char := natDecChars (n + 1) n

/-- Buffer.toString with hex encoding: two lowercase hex digits per byte. -/
def bytesToHexChars : Bytes → List Char
  | [] => []
  | b :: bs => Nat.digitChar (b / 16) :: Nat.digitChar (b % 16) :: bytesToHexChars bs

/-- UTF-8 bytes of an ASCII character list, as produced when the Node crypto
hash update function receives a JavaScript string instead of a Buffer. -/
def utf8Bytes (cs : List Char) : Bytes := cs.map Char.toNat

/-- Decimal digit test on a character. -/
def isDigitChar (c : Char) : Bool := decide (48 ≤ c.toNat ∧ c.toNat ≤ 57)

/-- JavaScript parseInt with radix 10 on a digit-leading string: the value of
the maximal leading run of decimal digits, or failure when there is none. -/
def parseIntDec (cs : List Char) : Option Nat :=
  match cs.takeWhile isDigitChar with
  | [] => none
  | ds => some (ds.foldl (fun a c => a * 10 + (c.toNat - 48)) 0)

/-- JavaScript String.prototype.split on the slash character. -/
def splitSlash : List Char → List (List Char)
  | [] => [[]]
  | c :: cs =>
    if c = '/' then [] :: splitSlash cs
    else
      match splitSlash cs with
      | t :: ts => (c :: t) :: ts
      | [] => [[c]]

/-- Network parameter records from the bitcoinjs-lib networks table.  The
Bech32 human-readable part is coded as a numeric tag (0 for bc, 1 for tb). -/
structure Network where
  bech32 : Nat
  pubKeyHash : Nat
  scriptHash : Nat
  wifVersion : Nat
deriving DecidableEq

/-- Mainnet parameters: version bytes 0x00, 0x05, 0x80 and the bc prefix. -/
def networksBitcoin : Network := { bech32 := 0, pubKeyHash := 0, scriptHash := 5, wifVersion := 128 }

/-- Testnet parameters: version bytes 0x6f, 0xc4, 0xef and the tb prefix. -/
def networksTestnet : Network := { bech32 := 1, pubKeyHash := 111, scriptHash := 196, wifVersion := 239 }

/-- The string compared against the network input. -/
def testnetStr : String := "testnet"

/-- getSelectedNetwork from index.js: the switch returns the testnet
parameters exactly on the string testnet and mainnet on every other input,
including an absent one. -/
def getSelectedNetwork (networkInput : Option String) : Network :=
  if networkInput = some testnetStr then networksTestnet else networksBitcoin

/-- P2PKH output script: OP_DUP OP_HASH160 push20 hash OP_EQUALVERIFY OP_CHECKSIG. -/
def p2pkhScript (h : Bytes) : Bytes := 118 :: 169 :: 20 :: (h ++ [136, 172])

/-- P2SH output script: OP_HASH160 push20 hash OP_EQUAL. -/
def p2shScript (h : Bytes) : Bytes := 169 :: 20 :: (h ++ [135])

/-- P2WPKH witness program: OP_0 push20 hash. -/
def wpkhScript (h : Bytes) : Bytes := 0 :: 20 :: h

/-- P2WSH witness program: OP_0 push32 hash. -/
def wshScript (h : Bytes) : Bytes := 0 :: 32 :: h

/-- Template check for a P2PKH output script. -/
def isP2pkh : Bytes → Bool
  | 118 :: 169 :: 20 :: rest => rest.length = 22 && rest.drop 20 = [136, 172]
  | _ => false

/-- Template check for a P2SH output script. -/
def isP2sh : Bytes → Bool
  | 169 :: 20 :: rest => rest.length = 21 && rest.drop 20 = [135]
  | _ => false

/-- Template check for a P2WPKH witness program. -/
def isWpkh : Bytes → Bool
  | 0 :: 20 :: rest => rest.length = 20
  | _ => false

/-- Template check for a P2WSH witness program. -/
def isWsh : Bytes → Bool
  | 0 :: 32 :: rest => rest.length = 32
  | _ => false

/-- An elliptic-curve key pair as consumed by the wrapper: the public key
buffer and the WIF encoding of the private key. -/
structure KeyPair where
  pub : Bytes
  wifStr : JsStr
deriving DecidableEq

/-- A BIP32 node: its key pair plus the chain code that drives derivation. -/
structure HDNode where
  keyPair : KeyPair
  chainCode : Bytes
deriving DecidableEq

/-- The primitive-crypto capability bundle.  These are the trusted external
collaborators of the design: hashes, the Base58Check and Bech32 codecs,
secp256k1 key handling and BIP32 child derivation. -/
structure Prims where
  sha256 : Bytes → Bytes
  hash160 : Bytes → Bytes
  b58enc : Nat → Bytes → JsStr
  b58dec : JsStr → Option (Nat × Bytes)
  bechEnc : Nat → Nat → Bytes → JsStr
  bechDec : JsStr → Option (Nat × Nat × Bytes)
  makeRandom : Nat → Network → KeyPair
  ecFromWIF : JsStr → Network → KeyPair
  fromSeedHex : JsStr → Network → HDNode
  deriveChild : HDNode → Nat → HDNode

/-- Contract: HASH160 always returns twenty bytes. -/
def Hash160Len (P : Prims) : Prop := ∀ bs : Bytes, (P.hash160 bs).length = 20

/-- Contract: Base58Check decoding inverts encoding. -/
def B58RoundTrip (P : Prims) : Prop :=
  ∀ (v : Nat) (h : Bytes), P.b58dec (P.b58enc v h) = some (v, h)

/-- Contract: Bech32 decoding inverts encoding. -/
def BechRoundTrip (P : Prims) : Prop :=
  ∀ (hrp ver : Nat) (d : Bytes), P.bechDec (P.bechEnc hrp ver d) = some (hrp, ver, d)

/-- Contract: a Bech32 string is never a valid Base58Check string. -/
def BechNotB58 (P : Prims) : Prop :=
  ∀ (hrp ver : Nat) (d : Bytes), P.b58dec (P.bechEnc hrp ver d) = none

/-- bitcoinjs address.fromBase58Check: decode and insist on a 21-byte payload,
one version byte followed by a twenty-byte hash. -/
def fromBase58Check (P : Prims) (addr : JsStr) : Option (Nat × Bytes) :=
  match P.b58dec addr with
  | some (v, h) => if h.length = 20 then some (v, h) else none
  | none => none

/-- bitcoinjs address.toOutputScript: try Base58Check first and match the
version byte against the network, otherwise try Bech32 and match the prefix
and witness version; failure models the thrown decode error. -/
def toOutputScript (P : Prims) (addr : JsStr) (net : Network) : Option Bytes :=
  match fromBase58Check P addr with
  | some (v, h) =>
    if v = net.pubKeyHash then some (p2pkhScript h)
    else if v = net.scriptHash then some (p2shScript h)
    else none
  | none =>
    match P.bechDec addr with
    | some (hrp, ver, data) =>
      if hrp = net.bech32 then
        if ver = 0 then
          if data.length = 20 then some (wpkhScript data)
          else if data.length = 32 then some (wshScript data)
          else none
        else none
      else none
    | none => none

/-- bitcoinjs address.fromOutputScript: classify the script by template and
encode with the matching codec; failure models the thrown classify error. -/
def fromOutputScript (P : Prims) (script : Bytes) (net : Network) : Option JsStr :=
  if isP2pkh script then some (P.b58enc net.pubKeyHash ((script.drop 3).take 20))
  else if isP2sh script then some (P.b58enc net.scriptHash ((script.drop 2).take 20))
  else if isWpkh script then some (P.bechEnc net.bech32 0 ((script.drop 2).take 20))
  else if isWsh script then some (P.bechEnc net.bech32 0 ((script.drop 2).take 32))
  else none

/-- A JavaScript Promise: the value an async function settles with. -/
structure Promise (α : Type) where
  val : α
deriving DecidableEq

/-- JavaScript truthiness of a Promise object: any object is truthy,
independently of the value it will settle with. -/
def jsTruthy {α : Type} (_ : Promise α) : Bool := true

/-- isValidAddress from index.js: an async function that settles with true
exactly when toOutputScript succeeds for the selected network. -/
def isValidAddress (P : Prims) (addr : JsStr) (networkInput : Option String) : Promise Bool :=
  ⟨(toOutputScript P addr (getSelectedNetwork networkInput)).isSome⟩

/-- Result record of createPayToScriptHash_PayToWitnessPublicKeyHash. -/
structure SegwitWallet where
  p2shp2wpkh : JsStr
  witnessPubKeyHashHex : List Char
  wif : JsStr
deriving DecidableEq

/-- Result record of createWallets and createWalletsFromWIF. -/
structure WalletsAll where
  wif : JsStr
  p2pkh : JsStr
  p2wpkh : JsStr
  p2shp2wpkh : JsStr
  witnessPubKeyHashHex : List Char
deriving DecidableEq

/-- createPayToScriptHash_PayToWitnessPublicKeyHash from index.js: make a
random key, rebuild it from its WIF, form the P2WPKH witness program, render
it as hex text, HASH160 that text (the hash update receives the string, hence
its UTF-8 bytes), wrap in a P2SH script and encode the address. -/
def createPayToScriptHash_PayToWitnessPublicKeyHash (P : Prims) (rng : Nat)
    (networkInput : Option String) : Option SegwitWallet :=
  let network := getSelectedNetwork networkInput
  let wif := (P.makeRandom rng network).wifStr
  let keyPair := P.ecFromWIF wif network
  let pubKey := keyPair.pub
  let pubKeyHash := P.hash160 pubKey
  let witnessPubKeyHash := wpkhScript pubKeyHash
  let witnessPubKeyHashHex := bytesToHexChars witnessPubKeyHash
  let witnessPubKeyHashHexHash := P.hash160 (utf8Bytes witnessPubKeyHashHex)
  let scriptHash := p2shScript witnessPubKeyHashHexHash
  (fromOutputScript P scriptHash network).map fun a =>
    { p2shp2wpkh := a, witnessPubKeyHashHex := witnessPubKeyHashHex, wif := wif }

/-- createSegwitWallet from index.js: a pass-through alias. -/
def createSegwitWallet (P : Prims) (rng : Nat) (networkInput : Option String) :
    Option SegwitWallet :=
  createPayToScriptHash_PayToWitnessPublicKeyHash P rng networkInput

/-- Shared body of createWallets and createWalletsFromWIF after the key pair
has been fixed: the three addresses derived from one key. -/
def walletsFromKey (P : Prims) (wif : JsStr) (network : Network) : Option WalletsAll :=
  let keyPair := P.ecFromWIF wif network
  let p2pkh := P.b58enc network.pubKeyHash (P.hash160 keyPair.pub)
  let pubKey := keyPair.pub
  let pubKeyHash := P.hash160 pubKey
  let witnessPubKeyHash := wpkhScript pubKeyHash
  (fromOutputScript P witnessPubKeyHash network).bind fun p2wpkh =>
    let witnessPubKeyHashHex := bytesToHexChars witnessPubKeyHash
    let witnessPubKeyHashHexHash := P.hash160 (utf8Bytes witnessPubKeyHashHex)
    let scriptHash := p2shScript witnessPubKeyHashHexHash
    (fromOutputScript P scriptHash network).map fun p2shp2wpkh =>
      { wif := wif, p2pkh := p2pkh, p2wpkh := p2wpkh, p2shp2wpkh := p2shp2wpkh,
        witnessPubKeyHashHex := witnessPubKeyHashHex }

/-- createWallets from index.js: a random key, then the three addresses. -/
def createWallets (P : Prims) (rng : Nat) (networkInput : Option String) :
    Option WalletsAll :=
  let network := getSelectedNetwork networkInput
  walletsFromKey P (P.makeRandom rng network).wifStr network

/-- createWalletsFromWIF from index.js: the three addresses of a given WIF. -/
def createWalletsFromWIF (P : Prims) (wif : JsStr) (networkInput : Option String) :
    Option WalletsAll :=
  walletsFromKey P wif (getSelectedNetwork networkInput)

/-- The coin-type path segment from index.js line 252: one on the string
testnet, zero on every other input. -/
def hdNetPath (networkInput : Option String) : Nat :=
  if networkInput = some testnetStr then 1 else 0

/-- The template literal of index.js line 255: the five-segment derivation
path with hardened purpose, coin type and account. -/
def hdPath (purpose netPath account receivingOrChange index : Nat) : List Char :=
  ['m', '/'] ++ decStr purpose ++ [aposChar, '/'] ++ decStr netPath ++ [aposChar, '/'] ++
    decStr account ++ [aposChar, '/'] ++ decStr receivingOrChange ++ ['/'] ++ decStr index

/-- One chunk of the bitcoinjs derivePath reduce step: hardened when the
chunk ends in an apostrophe, index parsed from the remaining digits. -/
def parseChunk (cs : List Char) : Option (Nat × Bool) :=
  if cs.getLast? = some aposChar then (parseIntDec cs.dropLast).map (fun n => (n, true))
  else (parseIntDec cs).map (fun n => (n, false))

/-- All chunks of a split path, failing when any chunk fails to parse. -/
def parseSegments : List (List Char) → Option (List (Nat × Bool))
  | [] => some []
  | c :: cs =>
    match parseChunk c, parseSegments cs with
    | some s, some ss => some (s :: ss)
    | _, _ => none

/-- The hardened-derivation index offset, 2 to the 31st power. -/
def hardenedOffset : Nat := 2147483648

/-- Apply parsed path segments left to right with the BIP32 child step;
hardened segments add the hardened offset to the index. -/
def applySegments (P : Prims) (node : HDNode) (segs : List (Nat × Bool)) : HDNode :=
  segs.foldl (fun nd sg => P.deriveChild nd (if sg.2 then sg.1 + hardenedOffset else sg.1)) node

/-- bitcoinjs HDNode.derivePath: split on slashes, drop a leading m chunk,
parse every chunk and fold the child-derivation step over the result. -/
def hdDerivePath (P : Prims) (node : HDNode) (path : List Char) : Option HDNode :=
  let chunks := splitSlash path
  let chunks :=
    match chunks with
    | c :: rest => if c = ['m'] then rest else c :: rest
    | [] => []
  (parseSegments chunks).map (applySegments P node)

/-- Result of createHierarchicalDeterministic: one of three record shapes,
selected by the purpose argument. -/
inductive HDWalletResult where
  | p2wpkhR (p2wpkh : JsStr) (wif : JsStr)
  | p2shR (p2shp2wpkh : JsStr) (wif : JsStr) (witnessPubKeyHashHex : List Char)
  | p2pkhR (p2pkh : JsStr) (wif : JsStr)
deriving DecidableEq

/-- The body of createHierarchicalDeterministic after the path derivation:
switch on the purpose code and build the returned address record from the
key pair of the derived node. -/
def hdAddressOf (P : Prims) (nd : HDNode) (purpose : Nat) (network : Network) :
    Option HDWalletResult :=
  let keyPair := nd.keyPair
  let wif := keyPair.wifStr
  let publicKey := keyPair.pub
  let pubKeyHash := P.hash160 publicKey
  let witnessPubKeyHash := wpkhScript pubKeyHash
  if purpose = 84 then
    (fromOutputScript P witnessPubKeyHash network).map fun a => .p2wpkhR a wif
  else if purpose = 49 then
    let witnessPubKeyHashHex := bytesToHexChars witnessPubKeyHash
    let witnessPubKeyHashHexHash := P.hash160 (utf8Bytes witnessPubKeyHashHex)
    let scriptHash := p2shScript witnessPubKeyHashHexHash
    (fromOutputScript P scriptHash network).map fun a => .p2shR a wif witnessPubKeyHashHex
  else some (.p2pkhR (P.b58enc network.pubKeyHash pubKeyHash) wif)

/-- createHierarchicalDeterministic from index.js: derive a key pair along
the fixed five-segment path, then switch on the purpose code to build the
returned address record. -/
def createHierarchicalDeterministic (P : Prims) (seed : JsStr)
    (purpose account receivingOrChange index : Nat)
    (networkInput : Option String) : Option HDWalletResult :=
  let network := getSelectedNetwork networkInput
  let netPath := hdNetPath networkInput
  let node := P.fromSeedHex seed network
  let path := hdPath purpose netPath account receivingOrChange index
  (hdDerivePath P node path).bind fun nd => hdAddressOf P nd purpose network

/-- The key pair that the fixed five-segment derivation of the wrapper
produces for the given arguments. -/
def hdKeyAt (P : Prims) (seed : JsStr) (purpose account receivingOrChange index : Nat)
    (networkInput : Option String) : KeyPair :=
  (applySegments P (P.fromSeedHex seed (getSelectedNetwork networkInput))
    [(purpose, true), (hdNetPath networkInput, true), (account, true),
      (receivingOrChange, false), (index, false)]).keyPair

/-- createHDWallet from index.js: a pass-through alias. -/
def createHDWallet (P : Prims) (seed : JsStr)
    (purpose account receivingOrChange index : Nat)
    (networkInput : Option String) : Option HDWalletResult :=
  createHierarchicalDeterministic P seed purpose account receivingOrChange index networkInput

/-- A transaction input as held by the builder: previous outpoint, sequence
number and the optional previous output script. -/
structure TxIn where
  hash : Bytes
  index : Nat
  sequence : Nat
  prevOutScript : Option Bytes
deriving DecidableEq

/-- A transaction output: amount in the smallest unit and its script. -/
structure TxOut where
  value : Nat
  script : Bytes
deriving DecidableEq

/-- A signature record of the builder: which input was signed and the digest
that was signed for it. -/
structure SigRec where
  vin : Nat
  digest : Bytes
deriving DecidableEq

/-- The transaction builder state: network, version, locktime, input list,
output list and the signatures collected so far. -/
structure TxBuilder where
  network : Network
  version : Nat
  locktime : Nat
  ins : List TxIn
  outs : List TxOut
  sigs : List SigRec
deriving DecidableEq

/-- Errors surfaced by the spend functions. -/
inductive JsErr where
  | invalidAddressErr
  | invalidChangeAddressErr
  | noMatchingScriptErr
  | incompleteTxErr
deriving DecidableEq

/-- A fresh builder for a network. -/
def newBuilder (net : Network) : TxBuilder :=
  { network := net, version := 1, locktime := 0, ins := [], outs := [], sigs := [] }

/-- The default sequence number of an added input. -/
def defaultSequence : Nat := 4294967295

/-- TransactionBuilder.addInput: append an input with the default sequence. -/
def addInput (b : TxBuilder) (txHash : Bytes) (vout : Nat) (prevOutScript : Option Bytes) :
    TxBuilder :=
  { b with ins := b.ins ++ [{ hash := txHash, index := vout, sequence := defaultSequence,
                              prevOutScript := prevOutScript }] }

/-- TransactionBuilder.addOutput on an address string: decode the address
under the builder network and append the output, or throw the decode error. -/
def addOutput (P : Prims) (b : TxBuilder) (addr : JsStr) (value : Nat) :
    Except JsErr TxBuilder :=
  match toOutputScript P addr b.network with
  | some s => .ok { b with outs := b.outs ++ [{ value := value, script := s }] }
  | none => .error .noMatchingScriptErr

/-- Concatenation of a list of byte buffers. -/
def catBytes : List Bytes → Bytes
  | [] => []
  | x :: xs => x ++ catBytes xs

/-- Little-endian encoding of a number into a fixed count of bytes. -/
def leBytes : Nat → Nat → Bytes
  | 0, _ => []
  | k + 1, n => n % 256 :: leBytes k (n / 256)

/-- Bitcoin variable-length integer for the small sizes used here. -/
def varint (n : Nat) : Bytes :=
  if n < 253 then [n] else 253 :: leBytes 2 n

/-- Serialized outpoint of an input: previous hash then the output index. -/
def serOutpoint (i : TxIn) : Bytes := i.hash ++ leBytes 4 i.index

/-- Serialized output: amount, script length, script. -/
def serOutput (o : TxOut) : Bytes := leBytes 8 o.value ++ varint o.script.length ++ o.script

/-- Modelled from the spec: the double SHA-256 used by both sighash
algorithms (the hash code itself lives outside this repository). -/
def sha256d (sha256 : Bytes → Bytes) (bs : Bytes) : Bytes := sha256 (sha256 bs)

/-- Modelled from the spec: the single hash of all input outpoints of the
BIP143 preimage. -/
def hashPrevouts (sha256 : Bytes → Bytes) (b : TxBuilder) : Bytes :=
  sha256d sha256 (catBytes (b.ins.map serOutpoint))

/-- Modelled from the spec: the single hash of all input sequence numbers of
the BIP143 preimage. -/
def hashSequences (sha256 : Bytes → Bytes) (b : TxBuilder) : Bytes :=
  sha256d sha256 (catBytes (b.ins.map (fun i => leBytes 4 i.sequence)))

/-- Modelled from the spec: the single hash of all outputs of the BIP143
preimage. -/
def hashOutputs (sha256 : Bytes → Bytes) (b : TxBuilder) : Bytes :=
  sha256d sha256 (catBytes (b.outs.map serOutput))

/-- Modelled from the spec: the BIP143 witness sighash — version, hash of
outpoints, hash of sequences, the outpoint spent, the scriptCode, the
committed amount, the sequence, hash of outputs, locktime and sighash type,
double SHA-256 hashed.  This models hashForWitnessV0 of the underlying
library, which is not part of this repository. -/
def bip143Digest (sha256 : Bytes → Bytes) (b : TxBuilder) (input : TxIn)
    (scriptCode : Bytes) (value : Nat) (hashType : Nat) : Bytes :=
  sha256d sha256 (leBytes 4 b.version ++ hashPrevouts sha256 b ++ hashSequences sha256 b ++
    serOutpoint input ++ varint scriptCode.length ++ scriptCode ++ leBytes 8 value ++
    leBytes 4 input.sequence ++ hashOutputs sha256 b ++ leBytes 4 b.locktime ++
    leBytes 4 hashType)

/-- Modelled from the spec: the legacy sighash — serialize a copy of the
transaction in which the signed input carries the scriptCode and every other
input an empty script, append the sighash type, double SHA-256 hash.  This
models hashForSignature of the underlying library, which is not part of this
repository. -/
def legacyDigest (sha256 : Bytes → Bytes) (b : TxBuilder) (vin : Nat)
    (scriptCode : Bytes) (hashType : Nat) : Bytes :=
  sha256d sha256 (leBytes 4 b.version ++ varint b.ins.length ++
    catBytes (b.ins.enum.map (fun p =>
      serOutpoint p.2 ++
        (if p.1 = vin then varint scriptCode.length ++ scriptCode else varint 0) ++
        leBytes 4 p.2.sequence)) ++
    varint b.outs.length ++ catBytes (b.outs.map serOutput) ++ leBytes 4 b.locktime ++
    leBytes 4 hashType)

/-- Modelled from the spec: TransactionBuilder.sign of the underlying
library, as exercised by the wrapper.  When the input carries a P2WPKH
previous output script the BIP143 digest is computed with the scriptCode
derived from the witness program and the supplied witness value; otherwise
the legacy digest is computed, over the previous output script when present
and over the P2PKH script of the signing key when absent. -/
def signInput (P : Prims) (b : TxBuilder) (vin : Nat) (kp : KeyPair)
    (witnessValue : Option Nat) : TxBuilder :=
  let input := b.ins.getD vin { hash := [], index := 0, sequence := 0, prevOutScript := none }
  let digest :=
    match input.prevOutScript with
    | some s =>
      if isWpkh s then
        bip143Digest P.sha256 b input (p2pkhScript ((s.drop 2).take 20))
          (witnessValue.getD 0) 1
      else legacyDigest P.sha256 b vin s 1
    | none => legacyDigest P.sha256 b vin (p2pkhScript (P.hash160 kp.pub)) 1
  { b with sigs := b.sigs ++ [{ vin := vin, digest := digest }] }

/-- TransactionBuilder.build: every input must carry a signature, else the
incomplete-transaction error is thrown. -/
def buildTx (b : TxBuilder) : Except JsErr TxBuilder :=
  if (List.range b.ins.length).all (fun i => b.sigs.any (fun s => s.vin = i)) then .ok b
  else .error .incompleteTxErr

/-- The record returned by the spend functions. -/
structure TxHexResult where
  txHex : List Char
deriving DecidableEq

/-- Modelled from the spec: the wire serialization of a finalized
transaction, folded to a stub of its builder fields; the claims below never
inspect the hex text, only whether one is returned. -/
def txSerialize (b : TxBuilder) : Bytes :=
  leBytes 4 b.version ++ varint b.ins.length ++ catBytes (b.ins.map serOutpoint) ++
    varint b.outs.length ++ catBytes (b.outs.map serOutput) ++ leBytes 4 b.locktime

/-- spendFromP2PKH from index.js, up to the build step: one input, the
destination guard, the change guard, then signing input zero.  The guards
test the Promise returned by the async isValidAddress, so they always take
the then branch; a bad address surfaces as the decode error thrown inside
addOutput instead. -/
def spendFromP2PKHBuilder (P : Prims) (txHash : Bytes) (out : Nat) (address : JsStr)
    (amount : Nat) (wif : JsStr) (changeAddress : JsStr) (changeAmount : Nat)
    (networkInput : Option String) : Except JsErr TxBuilder :=
  let network := getSelectedNetwork networkInput
  let b := newBuilder network
  let b := addInput b txHash out none
  match (if jsTruthy (isValidAddress P address networkInput) then
           addOutput P b address amount
         else .error .invalidAddressErr) with
  | .error e => .error e
  | .ok b =>
    match (if jsTruthy (isValidAddress P changeAddress networkInput) then
             addOutput P b changeAddress changeAmount
           else .error .invalidChangeAddressErr) with
    | .error e => .error e
    | .ok b =>
      let keypairSpend := P.ecFromWIF wif network
      .ok (signInput P b 0 keypairSpend none)

/-- spendFromP2PKH from index.js: builder pipeline, build, serialize. -/
def spendFromP2PKH (P : Prims) (txHash : Bytes) (out : Nat) (address : JsStr)
    (amount : Nat) (wif : JsStr) (changeAddress : JsStr) (changeAmount : Nat)
    (networkInput : Option String) : Except JsErr TxHexResult :=
  match spendFromP2PKHBuilder P txHash out address amount wif changeAddress
          changeAmount networkInput with
  | .error e => .error e
  | .ok b =>
    match buildTx b with
    | .error e => .error e
    | .ok b => .ok { txHex := bytesToHexChars (txSerialize b) }

/-- spendFromLegacy from index.js: a pass-through alias. -/
def spendFromLegacy (P : Prims) (txHash : Bytes) (out : Nat) (address : JsStr)
    (amount : Nat) (wif : JsStr) (changeAddress : JsStr) (changeAmount : Nat)
    (networkInput : Option String) : Except JsErr TxHexResult :=
  spendFromP2PKH P txHash out address amount wif changeAddress changeAmount networkInput

/-- spendFromP2WPKH from index.js, up to the build step: recompute the
witness program from the public key of the supplied WIF, attach it as the
previous output script of the single input, run the two truthy guards, then
sign input zero with the balance as witness value. -/
def spendFromP2WPKHBuilder (P : Prims) (txHash : Bytes) (out : Nat) (address : JsStr)
    (amount : Nat) (wif : JsStr) (changeAddress : JsStr) (changeAmount : Nat)
    (balance : Nat) (networkInput : Option String) : Except JsErr TxBuilder :=
  let network := getSelectedNetwork networkInput
  let b := newBuilder network
  let keyPair := P.ecFromWIF wif network
  let publicKey := keyPair.pub
  let pubKeyHash := P.hash160 publicKey
  let witnessPubKeyHash := wpkhScript pubKeyHash
  let b := addInput b txHash out (some witnessPubKeyHash)
  match (if jsTruthy (isValidAddress P address networkInput) then
           addOutput P b address amount
         else .error .invalidAddressErr) with
  | .error e => .error e
  | .ok b =>
    match (if jsTruthy (isValidAddress P changeAddress networkInput) then
             addOutput P b changeAddress changeAmount
           else .error .invalidChangeAddressErr) with
    | .error e => .error e
    | .ok b => .ok (signInput P b 0 keyPair (some balance))

/-- spendFromP2WPKH from index.js: builder pipeline, build, serialize. -/
def spendFromP2WPKH (P : Prims) (txHash : Bytes) (out : Nat) (address : JsStr)
    (amount : Nat) (wif : JsStr) (changeAddress : JsStr) (changeAmount : Nat)
    (balance : Nat) (networkInput : Option String) : Except JsErr TxHexResult :=
  match spendFromP2WPKHBuilder P txHash out address amount wif changeAddress
          changeAmount balance networkInput with
  | .error e => .error e
  | .ok b =>
    match buildTx b with
    | .error e => .error e
    | .ok b => .ok { txHex := bytesToHexChars (txSerialize b) }

/-- spendFromBech32 from index.js: a pass-through alias. -/
def spendFromBech32 (P : Prims) (txHash : Bytes) (out : Nat) (address : JsStr)
    (amount : Nat) (wif : JsStr) (changeAddress : JsStr) (changeAmount : Nat)
    (balance : Nat) (networkInput : Option String) : Except JsErr TxHexResult :=
  spendFromP2WPKH P txHash out address amount wif changeAddress changeAmount balance
    networkInput

/-- Executable stand-in for SHA-256, used to instantiate witnesses. -/
def toySha256 (bs : Bytes) : Bytes := bs

/-- Executable stand-in for HASH160 with the documented output size. -/
def toyHash160 (bs : Bytes) : Bytes := List.replicate 20 (bs.length % 256)

/-- Executable stand-in for Base58Check encoding. -/
def toyB58enc (v : Nat) (h : Bytes) : JsStr := 0 :: v :: h

/-- Executable stand-in for Base58Check decoding. -/
def toyB58dec : JsStr → Option (Nat × Bytes)
  | 0 :: v :: h => some (v, h)
  | _ => none

/-- Executable stand-in for Bech32 encoding. -/
def toyBechEnc (hrp ver : Nat) (d : Bytes) : JsStr := 1 :: hrp :: ver :: d

/-- Executable stand-in for Bech32 decoding. -/
def toyBechDec : JsStr → Option (Nat × Nat × Bytes)
  | 1 :: hrp :: ver :: d => some (hrp, ver, d)
  | _ => none

/-- Executable stand-in for the whole primitive bundle. -/
def toyPrims : Prims where
  sha256 := toySha256
  hash160 := toyHash160
  b58enc := toyB58enc
  b58dec := toyB58dec
  bechEnc := toyBechEnc
  bechDec := toyBechDec
  makeRandom := fun rng _ => { pub := [rng], wifStr := [rng] }
  ecFromWIF := fun w _ => { pub := w, wifStr := w }
  fromSeedHex := fun seed _ => { keyPair := { pub := seed, wifStr := seed }, chainCode := [] }
  deriveChild := fun nd i =>
    { keyPair := { pub := i :: nd.keyPair.pub, wifStr := i :: nd.keyPair.wifStr },
      chainCode := nd.chainCode }

theorem toyPrims_hash160Len : Hash160Len toyPrims := by
  intro bs
  simp [toyPrims, toyHash160]

theorem toyPrims_b58RoundTrip : B58RoundTrip toyPrims := fun _ _ => rfl

theorem toyPrims_bechRoundTrip : BechRoundTrip toyPrims := fun _ _ _ => rfl

theorem toyPrims_bechNotB58 : BechNotB58 toyPrims := fun _ _ _ => rfl

theorem digitChar_toNat_of_lt_ten : ∀ d : Nat, d < 10 → (Nat.digitChar d).toNat = 48 + d := by
  decide

theorem natDecChars_mem_digit :
    ∀ (f n : Nat), ∀ c ∈ natDecChars f n, 48 ≤ c.toNat ∧ c.toNat ≤ 57 := by
  intro f
  induction f with
  | zero => intro n c hc; simp [natDecChars] at hc
  | succ f ih =>
    intro n c hc
    by_cases h : n < 10
    · simp [natDecChars, h] at hc
      subst hc
      have := digitChar_toNat_of_lt_ten n h
      omega
    · simp [natDecChars, h] at hc
      rcases hc with hc | hc
      · exact ih _ c hc
      · subst hc
        have hm : n % 10 < 10 := Nat.mod_lt _ (by omega)
        have := digitChar_toNat_of_lt_ten (n % 10) hm
        omega

theorem natDecChars_ne_nil (f n : Nat) : natDecChars (f + 1) n ≠ [] := by
  by_cases h : n < 10 <;> simp [natDecChars, h]

theorem natDecChars_foldl :
    ∀ (f n : Nat), n < f → ∀ acc : Nat,
      (natDecChars f n).foldl (fun a c => a * 10 + (c.toNat - 48)) acc =
        acc * 10 ^ (natDecChars f n).length + n := by
  intro f
  induction f with
  | zero => intro n hn; omega
  | succ f ih =>
    intro n hn acc
    by_cases h : n < 10
    · simp [natDecChars, h, digitChar_toNat_of_lt_ten n h]
    · have hge : 10 ≤ n := by omega
      have hdiv : n / 10 < n := Nat.div_lt_self (by omega) (by omega)
      have hdf : n / 10 < f := by omega
      have hm : n % 10 < 10 := Nat.mod_lt _ (by omega)
      have hdm : 10 * (n / 10) + n % 10 = n := Nat.div_add_mod n 10
      simp only [natDecChars, if_neg h, List.foldl_append, List.foldl_cons, List.foldl_nil,
        List.length_append, List.length_cons, List.length_nil]
      rw [ih (n / 10) hdf acc, digitChar_toNat_of_lt_ten (n % 10) hm]
      have hsub : 48 + n % 10 - 48 = n % 10 := by omega
      rw [hsub]
      calc (acc * 10 ^ (natDecChars f (n / 10)).length + n / 10) * 10 + n % 10
          = acc * (10 ^ (natDecChars f (n / 10)).length * 10) + (10 * (n / 10) + n % 10) := by
            ring
        _ = acc * 10 ^ ((natDecChars f (n / 10)).length + (0 + 1)) + n := by
            rw [pow_succ, hdm]

theorem decStr_mem_digit : ∀ (n : Nat), ∀ c ∈ decStr n, 48 ≤ c.toNat ∧ c.toNat ≤ 57 :=
  fun n => natDecChars_mem_digit (n + 1) n

theorem decStr_ne_nil (n : Nat) : decStr n ≠ [] := natDecChars_ne_nil n n

theorem takeWhile_eq_self_of_all {p : Char → Bool} :
    ∀ l : List Char, (∀ c ∈ l, p c = true) → l.takeWhile p = l := by
  intro l
  induction l with
  | nil => intro _; rfl
  | cons a l ih =>
    intro h
    rw [List.takeWhile_cons, if_pos (h a (List.mem_cons_self a l))]
    rw [ih (fun c hc => h c (List.mem_cons_of_mem a hc))]

theorem parseIntDec_decStr (n : Nat) : parseIntDec (decStr n) = some n := by
  have hall : ∀ c ∈ decStr n, isDigitChar c = true := by
    intro c hc
    have := decStr_mem_digit n c hc
    simp [isDigitChar]
    omega
  have htw : (decStr n).takeWhile isDigitChar = decStr n :=
    takeWhile_eq_self_of_all _ hall
  obtain ⟨d, l, hdl⟩ := List.exists_cons_of_ne_nil (decStr_ne_nil n)
  have hfold := natDecChars_foldl (n + 1) n (by omega) 0
  unfold parseIntDec
  rw [htw, hdl]
  simp only [← hdl]
  rw [show decStr n = natDecChars (n + 1) n from rfl, hfold]
  simp

theorem splitSlash_no_slash :
    ∀ l : List Char, (∀ c ∈ l, c ≠ '/') → splitSlash l = [l] := by
  intro l
  induction l with
  | nil => intro _; rfl
  | cons a l ih =>
    intro h
    have ha : a ≠ '/' := h a (List.mem_cons_self a l)
    rw [splitSlash, if_neg ha, ih (fun c hc => h c (List.mem_cons_of_mem a hc))]

theorem splitSlash_append :
    ∀ (l r : List Char), (∀ c ∈ l, c ≠ '/') →
      splitSlash (l ++ '/' :: r) = l :: splitSlash r := by
  intro l
  induction l with
  | nil => intro r _; simp [splitSlash]
  | cons a l ih =>
    intro r h
    have ha : a ≠ '/' := h a (List.mem_cons_self a l)
    have hrec := ih r (fun c hc => h c (List.mem_cons_of_mem a hc))
    simp only [List.cons_append, splitSlash, if_neg ha, List.append_eq, hrec]

/-- Chunks joined with slash separators, the inverse shape of splitSlash. -/
def joinSlash : List (List Char) → List Char
  | [] => []
  | [c] => c
  | c :: c2 :: cs => c ++ '/' :: joinSlash (c2 :: cs)

theorem splitSlash_joinSlash :
    ∀ L : List (List Char), L ≠ [] → (∀ l ∈ L, ∀ c ∈ l, c ≠ '/') →
      splitSlash (joinSlash L) = L := by
  intro L
  induction L with
  | nil => intro h; exact absurd rfl h
  | cons c cs ih =>
    intro _ h
    cases cs with
    | nil => exact splitSlash_no_slash c (h c (List.mem_cons_self c []))
    | cons c2 cs2 =>
      rw [joinSlash, splitSlash_append c _ (h c (List.mem_cons_self c _)),
        ih (by simp) (fun l hl => h l (List.mem_cons_of_mem c hl))]

theorem decStr_no_slash (n : Nat) : ∀ c ∈ decStr n, c ≠ '/' := by
  intro c hc
  have := decStr_mem_digit n c hc
  intro he
  subst he
  simp at this

theorem decStr_apos_no_slash (n : Nat) : ∀ c ∈ decStr n ++ [aposChar], c ≠ '/' := by
  intro c hc
  rcases List.mem_append.mp hc with hc | hc
  · exact decStr_no_slash n c hc
  · simp at hc
    subst hc
    simp [aposChar]

theorem hdPath_eq_join (p c a r i : Nat) :
    hdPath p c a r i =
      joinSlash [['m'], decStr p ++ [aposChar], decStr c ++ [aposChar],
        decStr a ++ [aposChar], decStr r, decStr i] := by
  simp [hdPath, joinSlash]

theorem splitSlash_hdPath (p c a r i : Nat) :
    splitSlash (hdPath p c a r i) =
      [['m'], decStr p ++ [aposChar], decStr c ++ [aposChar],
        decStr a ++ [aposChar], decStr r, decStr i] := by
  rw [hdPath_eq_join]
  apply splitSlash_joinSlash _ (by simp)
  intro l hl
  simp only [List.mem_cons, List.not_mem_nil, or_false] at hl
  rcases hl with h | h | h | h | h | h <;> subst h
  · intro ch hch
    simp at hch
    subst hch
    decide
  · exact decStr_apos_no_slash p
  · exact decStr_apos_no_slash c
  · exact decStr_apos_no_slash a
  · exact decStr_no_slash r
  · exact decStr_no_slash i

theorem parseChunk_hardened (n : Nat) : parseChunk (decStr n ++ [aposChar]) = some (n, true) := by
  unfold parseChunk
  rw [List.getLast?_concat, if_pos rfl, List.dropLast_concat, parseIntDec_decStr]
  rfl

theorem parseChunk_plain (n : Nat) : parseChunk (decStr n) = some (n, false) := by
  unfold parseChunk
  have hne : decStr n ≠ [] := decStr_ne_nil n
  obtain ⟨d, l, hdl⟩ := List.exists_cons_of_ne_nil hne
  have hlast : (decStr n).getLast hne ∈ decStr n := List.getLast_mem hne
  have hdig := decStr_mem_digit n _ hlast
  have hgl : (decStr n).getLast? = some ((decStr n).getLast hne) := List.getLast?_eq_getLast _ hne
  have hnea : (decStr n).getLast? ≠ some aposChar := by
    rw [hgl]
    intro hcon
    have : (decStr n).getLast hne = aposChar := by injection hcon
    rw [this] at hdig
    simp [aposChar] at hdig
  rw [if_neg hnea, parseIntDec_decStr]
  rfl

theorem hdDerivePath_hdPath (P : Prims) (node : HDNode) (p c a r i : Nat) :
    hdDerivePath P node (hdPath p c a r i) =
      some (applySegments P node [(p, true), (c, true), (a, true), (r, false), (i, false)]) := by
  unfold hdDerivePath
  rw [splitSlash_hdPath]
  simp [parseSegments, parseChunk_hardened, parseChunk_plain]

theorem bytesToHexChars_length : ∀ bs : Bytes, (bytesToHexChars bs).length = 2 * bs.length := by
  intro bs
  induction bs with
  | nil => rfl
  | cons b bs ih => simp [bytesToHexChars, ih]; omega

theorem utf8Bytes_length (cs : List Char) : (utf8Bytes cs).length = cs.length :=
  List.length_map _ _

/-- The UTF-8 bytes of the hex rendering of a nonempty buffer are never the
buffer itself: the lengths differ. -/
theorem utf8_hex_ne (bs : Bytes) (h : bs ≠ []) : utf8Bytes (bytesToHexChars bs) ≠ bs := by
  intro he
  have hlen := congrArg List.length he
  rw [utf8Bytes_length, bytesToHexChars_length] at hlen
  have : bs.length ≠ 0 := fun h0 => h (List.length_eq_zero.mp h0)
  omega

theorem isP2pkh_p2pkh (h : Bytes) (hl : h.length = 20) : isP2pkh (p2pkhScript h) = true := by
  simp [isP2pkh, p2pkhScript, hl, List.drop_left' hl]

theorem isP2sh_p2sh (h : Bytes) (hl : h.length = 20) : isP2sh (p2shScript h) = true := by
  simp [isP2sh, p2shScript, hl, List.drop_left' hl]

theorem isWpkh_wpkh (h : Bytes) (hl : h.length = 20) : isWpkh (wpkhScript h) = true := by
  simp [isWpkh, wpkhScript, hl]

theorem fromOutputScript_p2pkh (P : Prims) (net : Network) (h : Bytes) (hl : h.length = 20) :
    fromOutputScript P (p2pkhScript h) net = some (P.b58enc net.pubKeyHash h) := by
  unfold fromOutputScript
  rw [if_pos (isP2pkh_p2pkh h hl)]
  simp [p2pkhScript, List.take_left' hl]

theorem fromOutputScript_p2sh (P : Prims) (net : Network) (h : Bytes) (hl : h.length = 20) :
    fromOutputScript P (p2shScript h) net = some (P.b58enc net.scriptHash h) := by
  unfold fromOutputScript
  have h1 : isP2pkh (p2shScript h) = false := rfl
  rw [h1, if_neg (by simp), if_pos (isP2sh_p2sh h hl)]
  simp [p2shScript, List.take_left' hl]

theorem fromOutputScript_wpkh (P : Prims) (net : Network) (h : Bytes) (hl : h.length = 20) :
    fromOutputScript P (wpkhScript h) net = some (P.bechEnc net.bech32 0 h) := by
  unfold fromOutputScript
  have h1 : isP2pkh (wpkhScript h) = false := rfl
  have h2 : isP2sh (wpkhScript h) = false := rfl
  rw [h1, if_neg (by simp), h2, if_neg (by simp), if_pos (isWpkh_wpkh h hl)]
  have htake : h.take 20 = h := by rw [← hl]; exact List.take_length h
  simp [wpkhScript, htake]

theorem toOutputScript_b58 (P : Prims) (hrt : B58RoundTrip P) (v : Nat) (h : Bytes)
    (hl : h.length = 20) (net : Network) :
    toOutputScript P (P.b58enc v h) net =
      if v = net.pubKeyHash then some (p2pkhScript h)
      else if v = net.scriptHash then some (p2shScript h)
      else none := by
  unfold toOutputScript fromBase58Check
  rw [hrt v h]
  simp [hl]

theorem toOutputScript_bech (P : Prims) (hnb : BechNotB58 P) (hrt : BechRoundTrip P)
    (d : Bytes) (hl : d.length = 20) (net : Network) :
    toOutputScript P (P.bechEnc net.bech32 0 d) net = some (wpkhScript d) := by
  unfold toOutputScript fromBase58Check
  rw [hnb net.bech32 0 d, hrt net.bech32 0 d]
  simp [hl]

theorem getSelectedNetwork_pkh_ne_sh (ni : Option String) :
    (getSelectedNetwork ni).pubKeyHash ≠ (getSelectedNetwork ni).scriptHash := by
  unfold getSelectedNetwork
  split <;> decide

theorem getSelectedNetwork_sh_ne_pkh (ni : Option String) :
    (getSelectedNetwork ni).scriptHash ≠ (getSelectedNetwork ni).pubKeyHash := by
  unfold getSelectedNetwork
  split <;> decide

theorem spendFromP2PKHBuilder_eq (P : Prims) (txh : Bytes) (out : Nat) (addr : JsStr)
    (amt : Nat) (wif : JsStr) (ch : JsStr) (chAmt : Nat) (ni : Option String) :
    spendFromP2PKHBuilder P txh out addr amt wif ch chAmt ni =
      match toOutputScript P addr (getSelectedNetwork ni),
            toOutputScript P ch (getSelectedNetwork ni) with
      | none, _ => .error .noMatchingScriptErr
      | some _, none => .error .noMatchingScriptErr
      | some s1, some s2 =>
        .ok (signInput P
          { network := getSelectedNetwork ni, version := 1, locktime := 0,
            ins := [{ hash := txh, index := out, sequence := defaultSequence,
                      prevOutScript := none }],
            outs := [{ value := amt, script := s1 }, { value := chAmt, script := s2 }],
            sigs := [] } 0 (P.ecFromWIF wif (getSelectedNetwork ni)) none) := by
  unfold spendFromP2PKHBuilder addOutput addInput newBuilder jsTruthy
  cases h1 : toOutputScript P addr (getSelectedNetwork ni) <;>
    cases h2 : toOutputScript P ch (getSelectedNetwork ni) <;>
      simp [h1, h2]

theorem spendFromP2WPKHBuilder_eq (P : Prims) (txh : Bytes) (out : Nat) (addr : JsStr)
    (amt : Nat) (wif : JsStr) (ch : JsStr) (chAmt bal : Nat) (ni : Option String) :
    spendFromP2WPKHBuilder P txh out addr amt wif ch chAmt bal ni =
      match toOutputScript P addr (getSelectedNetwork ni),
            toOutputScript P ch (getSelectedNetwork ni) with
      | none, _ => .error .noMatchingScriptErr
      | some _, none => .error .noMatchingScriptErr
      | some s1, some s2 =>
        .ok (signInput P
          { network := getSelectedNetwork ni, version := 1, locktime := 0,
            ins := [{ hash := txh, index := out, sequence := defaultSequence,
                      prevOutScript :=
                        some (wpkhScript (P.hash160
                          (P.ecFromWIF wif (getSelectedNetwork ni)).pub)) }],
            outs := [{ value := amt, script := s1 }, { value := chAmt, script := s2 }],
            sigs := [] } 0 (P.ecFromWIF wif (getSelectedNetwork ni)) (some bal)) := by
  unfold spendFromP2WPKHBuilder addOutput addInput newBuilder jsTruthy
  cases h1 : toOutputScript P addr (getSelectedNetwork ni) <;>
    cases h2 : toOutputScript P ch (getSelectedNetwork ni) <;>
      simp [h1, h2]

theorem createHD_derives (P : Prims) (seed : JsStr) (purpose a r i : Nat)
    (ni : Option String) :
    createHierarchicalDeterministic P seed purpose a r i ni =
      hdAddressOf P (applySegments P (P.fromSeedHex seed (getSelectedNetwork ni))
        [(purpose, true), (hdNetPath ni, true), (a, true), (r, false), (i, false)])
        purpose (getSelectedNetwork ni) := by
  unfold createHierarchicalDeterministic
  dsimp only
  rw [hdDerivePath_hdPath]
  rfl

theorem hdAddressOf_84 (P : Prims) (hh : Hash160Len P) (nd : HDNode) (net : Network) :
    hdAddressOf P nd 84 net =
      some (.p2wpkhR (P.bechEnc net.bech32 0 (P.hash160 nd.keyPair.pub))
        nd.keyPair.wifStr) := by
  unfold hdAddressOf
  rw [if_pos rfl, fromOutputScript_wpkh P net _ (hh _)]
  rfl

theorem hdAddressOf_49 (P : Prims) (hh : Hash160Len P) (nd : HDNode) (net : Network) :
    hdAddressOf P nd 49 net =
      some (.p2shR
        (P.b58enc net.scriptHash (P.hash160 (utf8Bytes
          (bytesToHexChars (wpkhScript (P.hash160 nd.keyPair.pub))))))
        nd.keyPair.wifStr
        (bytesToHexChars (wpkhScript (P.hash160 nd.keyPair.pub)))) := by
  unfold hdAddressOf
  rw [if_neg (by decide), if_pos rfl]
  dsimp only
  rw [fromOutputScript_p2sh P net _ (hh _)]
  rfl

theorem hdAddressOf_44 (P : Prims) (nd : HDNode) (net : Network) :
    hdAddressOf P nd 44 net =
      some (.p2pkhR (P.b58enc net.pubKeyHash (P.hash160 nd.keyPair.pub))
        nd.keyPair.wifStr) := by
  unfold hdAddressOf
  rw [if_neg (by decide), if_neg (by decide)]

/-- Claim C7: createHierarchicalDeterministic is deterministic — two calls
with the same seed, purpose, account, receivingOrChange, index and network
input return the same result record, hence identical wif and address.  In
this embedding the function is pure and takes no entropy source, unlike the
random wallet constructors, which consume an explicit entropy argument. -/
theorem claimC7 (P : Prims) (s1 s2 : JsStr) (p1 p2 a1 a2 r1 r2 i1 i2 : Nat)
    (n1 n2 : Option String) (hs : s1 = s2) (hp : p1 = p2) (ha : a1 = a2)
    (hr : r1 = r2) (hi : i1 = i2) (hn : n1 = n2) :
    createHierarchicalDeterministic P s1 p1 a1 r1 i1 n1 =
      createHierarchicalDeterministic P s2 p2 a2 r2 i2 n2 := by
  subst hs; subst hp; subst ha; subst hr; subst hi; subst hn; rfl

theorem claimC7_witness :
    ([2] : JsStr) = [2] ∧
    createHierarchicalDeterministic toyPrims [2] 84 0 0 0 none =
      createHierarchicalDeterministic toyPrims [2] 84 0 0 0 none :=
  ⟨rfl, claimC7 toyPrims [2] [2] 84 84 0 0 0 0 0 0 none none rfl rfl rfl rfl rfl rfl⟩

/-- A network input string that is not the testnet selector. -/
def regtestStr : String := "regtest"

/-- Claim C8: every network input other than the exact string testnet —
including regtest, an absent input or any misspelling — selects the mainnet
parameters and the mainnet coin-type path segment, so the exported
operations silently behave as on mainnet instead of rejecting the input. -/
theorem claimC8 (ni : Option String) (hni : ni ≠ some testnetStr) :
    getSelectedNetwork ni = networksBitcoin ∧
    hdNetPath ni = 0 ∧
    (∀ (P : Prims) (w : JsStr),
      createWalletsFromWIF P w ni = createWalletsFromWIF P w none) ∧
    (∀ (P : Prims) (seed : JsStr) (p a r i : Nat),
      createHierarchicalDeterministic P seed p a r i ni =
        createHierarchicalDeterministic P seed p a r i none) := by
  have hg : getSelectedNetwork ni = networksBitcoin := by
    unfold getSelectedNetwork
    rw [if_neg hni]
  have hh : hdNetPath ni = 0 := by
    unfold hdNetPath
    rw [if_neg hni]
  refine ⟨hg, hh, ?_, ?_⟩
  · intro P w
    unfold createWalletsFromWIF
    rw [hg]
    rfl
  · intro P seed p a r i
    unfold createHierarchicalDeterministic
    dsimp only
    rw [hg, hh]
    rfl

theorem claimC8_witness :
    some regtestStr ≠ some testnetStr ∧
    (getSelectedNetwork (some regtestStr) = networksBitcoin ∧
      hdNetPath (some regtestStr) = 0 ∧
      (∀ (P : Prims) (w : JsStr),
        createWalletsFromWIF P w (some regtestStr) = createWalletsFromWIF P w none) ∧
      (∀ (P : Prims) (seed : JsStr) (p a r i : Nat),
        createHierarchicalDeterministic P seed p a r i (some regtestStr) =
          createHierarchicalDeterministic P seed p a r i none)) :=
  ⟨by decide, claimC8 (some regtestStr) (by decide)⟩

/-- Claim C9: the wrapper always derives along the fixed five-segment path:
purpose, coin type and account hardened, the last two segments plain, the
coin type one exactly on the testnet input and zero otherwise; every call of
createHierarchicalDeterministic factors through this path shape and no
other shape can be produced through the public interface. -/
theorem claimC9 (P : Prims) (node : HDNode) (seed : JsStr) (p a r i : Nat)
    (ni : Option String) :
    hdDerivePath P node (hdPath p (hdNetPath ni) a r i) =
      some (applySegments P node
        [(p, true), (hdNetPath ni, true), (a, true), (r, false), (i, false)]) ∧
    (hdNetPath ni = if ni = some testnetStr then 1 else 0) ∧
    createHierarchicalDeterministic P seed p a r i ni =
      hdAddressOf P (applySegments P (P.fromSeedHex seed (getSelectedNetwork ni))
        [(p, true), (hdNetPath ni, true), (a, true), (r, false), (i, false)])
        p (getSelectedNetwork ni) :=
  ⟨hdDerivePath_hdPath P node p (hdNetPath ni) a r i, rfl,
    createHD_derives P seed p a r i ni⟩

/-- Claim C4: the purpose argument selects the returned record shape — 84
gives the Bech32 record, 49 the wrapped-segwit record with the redeem-script
hex, 44 the legacy record — and each address is built from the key pair
derived at the requested path. -/
theorem claimC4 (P : Prims) (hh : Hash160Len P) (seed : JsStr) (a r i : Nat)
    (ni : Option String) :
    createHierarchicalDeterministic P seed 84 a r i ni =
      some (.p2wpkhR (P.bechEnc (getSelectedNetwork ni).bech32 0
          (P.hash160 (hdKeyAt P seed 84 a r i ni).pub))
        (hdKeyAt P seed 84 a r i ni).wifStr) ∧
    createHierarchicalDeterministic P seed 49 a r i ni =
      some (.p2shR (P.b58enc (getSelectedNetwork ni).scriptHash
          (P.hash160 (utf8Bytes (bytesToHexChars
            (wpkhScript (P.hash160 (hdKeyAt P seed 49 a r i ni).pub))))))
        (hdKeyAt P seed 49 a r i ni).wifStr
        (bytesToHexChars (wpkhScript (P.hash160 (hdKeyAt P seed 49 a r i ni).pub)))) ∧
    createHierarchicalDeterministic P seed 44 a r i ni =
      some (.p2pkhR (P.b58enc (getSelectedNetwork ni).pubKeyHash
          (P.hash160 (hdKeyAt P seed 44 a r i ni).pub))
        (hdKeyAt P seed 44 a r i ni).wifStr) ∧
    createHDWallet P seed 84 a r i ni = createHierarchicalDeterministic P seed 84 a r i ni := by
  refine ⟨?_, ?_, ?_, rfl⟩
  · rw [createHD_derives, hdAddressOf_84 P hh]
    rfl
  · rw [createHD_derives, hdAddressOf_49 P hh]
    rfl
  · rw [createHD_derives, hdAddressOf_44 P]
    rfl

theorem claimC4_witness :
    Hash160Len toyPrims ∧
    (createHierarchicalDeterministic toyPrims [2] 84 0 0 0 none =
      some (.p2wpkhR (toyPrims.bechEnc (getSelectedNetwork none).bech32 0
          (toyPrims.hash160 (hdKeyAt toyPrims [2] 84 0 0 0 none).pub))
        (hdKeyAt toyPrims [2] 84 0 0 0 none).wifStr) ∧
    createHierarchicalDeterministic toyPrims [2] 49 0 0 0 none =
      some (.p2shR (toyPrims.b58enc (getSelectedNetwork none).scriptHash
          (toyPrims.hash160 (utf8Bytes (bytesToHexChars
            (wpkhScript (toyPrims.hash160 (hdKeyAt toyPrims [2] 49 0 0 0 none).pub))))))
        (hdKeyAt toyPrims [2] 49 0 0 0 none).wifStr
        (bytesToHexChars (wpkhScript
          (toyPrims.hash160 (hdKeyAt toyPrims [2] 49 0 0 0 none).pub)))) ∧
    createHierarchicalDeterministic toyPrims [2] 44 0 0 0 none =
      some (.p2pkhR (toyPrims.b58enc (getSelectedNetwork none).pubKeyHash
          (toyPrims.hash160 (hdKeyAt toyPrims [2] 44 0 0 0 none).pub))
        (hdKeyAt toyPrims [2] 44 0 0 0 none).wifStr) ∧
    createHDWallet toyPrims [2] 84 0 0 0 none =
      createHierarchicalDeterministic toyPrims [2] 84 0 0 0 none) :=
  ⟨toyPrims_hash160Len, claimC4 toyPrims toyPrims_hash160Len [2] 0 0 0 none⟩

theorem wpkh_extract (h : Bytes) (hl : h.length = 20) :
    ((wpkhScript h).drop 2).take 20 = h := by
  simp only [wpkhScript, List.drop_succ_cons, List.drop_zero]
  rw [← hl]
  exact List.take_length h

theorem walletsFromKey_eq (P : Prims) (hh : Hash160Len P) (wif : JsStr) (net : Network) :
    walletsFromKey P wif net =
      some { wif := wif,
             p2pkh := P.b58enc net.pubKeyHash (P.hash160 (P.ecFromWIF wif net).pub),
             p2wpkh := P.bechEnc net.bech32 0 (P.hash160 (P.ecFromWIF wif net).pub),
             p2shp2wpkh := P.b58enc net.scriptHash (P.hash160 (utf8Bytes
               (bytesToHexChars (wpkhScript (P.hash160 (P.ecFromWIF wif net).pub))))),
             witnessPubKeyHashHex :=
               bytesToHexChars (wpkhScript (P.hash160 (P.ecFromWIF wif net).pub)) } := by
  unfold walletsFromKey
  dsimp only
  rw [fromOutputScript_wpkh P net _ (hh _), fromOutputScript_p2sh P net _ (hh _)]
  rfl

/-- Claim C6: every address returned by createWalletsFromWIF decodes back,
under the same network, to the very output script it encodes — the P2PKH
script, the P2WPKH witness program and the P2SH script of the hashed redeem
data respectively — and isValidAddress settles with true on each of them. -/
theorem claimC6 (P : Prims) (hh : Hash160Len P) (hb : B58RoundTrip P)
    (hc : BechRoundTrip P) (hn : BechNotB58 P) (wif : JsStr) (ni : Option String) :
    ∃ w : WalletsAll,
      createWalletsFromWIF P wif ni = some w ∧
      toOutputScript P w.p2pkh (getSelectedNetwork ni) =
        some (p2pkhScript (P.hash160 (P.ecFromWIF wif (getSelectedNetwork ni)).pub)) ∧
      toOutputScript P w.p2wpkh (getSelectedNetwork ni) =
        some (wpkhScript (P.hash160 (P.ecFromWIF wif (getSelectedNetwork ni)).pub)) ∧
      toOutputScript P w.p2shp2wpkh (getSelectedNetwork ni) =
        some (p2shScript (P.hash160 (utf8Bytes w.witnessPubKeyHashHex))) ∧
      (isValidAddress P w.p2pkh ni).val = true ∧
      (isValidAddress P w.p2wpkh ni).val = true ∧
      (isValidAddress P w.p2shp2wpkh ni).val = true := by
  have ew : createWalletsFromWIF P wif ni =
      some { wif := wif,
             p2pkh := P.b58enc (getSelectedNetwork ni).pubKeyHash
               (P.hash160 (P.ecFromWIF wif (getSelectedNetwork ni)).pub),
             p2wpkh := P.bechEnc (getSelectedNetwork ni).bech32 0
               (P.hash160 (P.ecFromWIF wif (getSelectedNetwork ni)).pub),
             p2shp2wpkh := P.b58enc (getSelectedNetwork ni).scriptHash
               (P.hash160 (utf8Bytes (bytesToHexChars (wpkhScript
                 (P.hash160 (P.ecFromWIF wif (getSelectedNetwork ni)).pub))))),
             witnessPubKeyHashHex := bytesToHexChars (wpkhScript
               (P.hash160 (P.ecFromWIF wif (getSelectedNetwork ni)).pub)) } := by
    unfold createWalletsFromWIF
    exact walletsFromKey_eq P hh wif (getSelectedNetwork ni)
  have e1 : toOutputScript P (P.b58enc (getSelectedNetwork ni).pubKeyHash
      (P.hash160 (P.ecFromWIF wif (getSelectedNetwork ni)).pub)) (getSelectedNetwork ni) =
      some (p2pkhScript (P.hash160 (P.ecFromWIF wif (getSelectedNetwork ni)).pub)) := by
    rw [toOutputScript_b58 P hb _ _ (hh _), if_pos rfl]
  have e2 : toOutputScript P (P.bechEnc (getSelectedNetwork ni).bech32 0
      (P.hash160 (P.ecFromWIF wif (getSelectedNetwork ni)).pub)) (getSelectedNetwork ni) =
      some (wpkhScript (P.hash160 (P.ecFromWIF wif (getSelectedNetwork ni)).pub)) :=
    toOutputScript_bech P hn hc _ (hh _) _
  have e3 : toOutputScript P (P.b58enc (getSelectedNetwork ni).scriptHash
      (P.hash160 (utf8Bytes (bytesToHexChars (wpkhScript
        (P.hash160 (P.ecFromWIF wif (getSelectedNetwork ni)).pub))))))
      (getSelectedNetwork ni) =
      some (p2shScript (P.hash160 (utf8Bytes (bytesToHexChars (wpkhScript
        (P.hash160 (P.ecFromWIF wif (getSelectedNetwork ni)).pub)))))) := by
    rw [toOutputScript_b58 P hb _ _ (hh _),
      if_neg (getSelectedNetwork_sh_ne_pkh ni), if_pos rfl]
  refine ⟨_, ew, e1, e2, e3, ?_, ?_, ?_⟩ <;>
    · unfold isValidAddress
      first
      | rw [e1]; rfl
      | rw [e2]; rfl
      | rw [e3]; rfl

theorem claimC6_witness :
    Hash160Len toyPrims ∧
    (∃ w : WalletsAll,
      createWalletsFromWIF toyPrims [7] none = some w ∧
      toOutputScript toyPrims w.p2pkh (getSelectedNetwork none) =
        some (p2pkhScript (toyPrims.hash160 (toyPrims.ecFromWIF [7] (getSelectedNetwork none)).pub)) ∧
      toOutputScript toyPrims w.p2wpkh (getSelectedNetwork none) =
        some (wpkhScript (toyPrims.hash160 (toyPrims.ecFromWIF [7] (getSelectedNetwork none)).pub)) ∧
      toOutputScript toyPrims w.p2shp2wpkh (getSelectedNetwork none) =
        some (p2shScript (toyPrims.hash160 (utf8Bytes w.witnessPubKeyHashHex))) ∧
      (isValidAddress toyPrims w.p2pkh none).val = true ∧
      (isValidAddress toyPrims w.p2wpkh none).val = true ∧
      (isValidAddress toyPrims w.p2shp2wpkh none).val = true) :=
  ⟨toyPrims_hash160Len,
    claimC6 toyPrims toyPrims_hash160Len toyPrims_b58RoundTrip toyPrims_bechRoundTrip
      toyPrims_bechNotB58 [7] none⟩

/-- Claim C1: contrary to the claim, the value hashed in the wrapped-segwit
redeem step is never the raw witness program: it is the UTF-8 byte sequence
of the hex text rendering of the program (44 bytes instead of 22), in all
four wallet constructors.  Each P2SH-P2WPKH address is the Base58Check
encoding, under the script-hash version, of HASH160 applied to that hex
text, not to the raw program bytes. -/
theorem claimC1 (P : Prims) (hh : Hash160Len P) (rng : Nat) (wif seed : JsStr)
    (a r i : Nat) (ni : Option String) :
    (∀ h : Bytes, utf8Bytes (bytesToHexChars (wpkhScript h)) ≠ wpkhScript h) ∧
    createPayToScriptHash_PayToWitnessPublicKeyHash P rng ni =
      some { p2shp2wpkh := P.b58enc (getSelectedNetwork ni).scriptHash
               (P.hash160 (utf8Bytes (bytesToHexChars (wpkhScript (P.hash160
                 (P.ecFromWIF (P.makeRandom rng (getSelectedNetwork ni)).wifStr
                   (getSelectedNetwork ni)).pub))))),
             witnessPubKeyHashHex := bytesToHexChars (wpkhScript (P.hash160
               (P.ecFromWIF (P.makeRandom rng (getSelectedNetwork ni)).wifStr
                 (getSelectedNetwork ni)).pub)),
             wif := (P.makeRandom rng (getSelectedNetwork ni)).wifStr } ∧
    (∃ w : WalletsAll, createWalletsFromWIF P wif ni = some w ∧
      w.p2shp2wpkh = P.b58enc (getSelectedNetwork ni).scriptHash
        (P.hash160 (utf8Bytes w.witnessPubKeyHashHex)) ∧
      w.witnessPubKeyHashHex = bytesToHexChars (wpkhScript
        (P.hash160 (P.ecFromWIF wif (getSelectedNetwork ni)).pub))) ∧
    (∃ w : WalletsAll, createWallets P rng ni = some w ∧
      w.p2shp2wpkh = P.b58enc (getSelectedNetwork ni).scriptHash
        (P.hash160 (utf8Bytes w.witnessPubKeyHashHex))) ∧
    createHierarchicalDeterministic P seed 49 a r i ni =
      some (.p2shR (P.b58enc (getSelectedNetwork ni).scriptHash
          (P.hash160 (utf8Bytes (bytesToHexChars
            (wpkhScript (P.hash160 (hdKeyAt P seed 49 a r i ni).pub))))))
        (hdKeyAt P seed 49 a r i ni).wifStr
        (bytesToHexChars (wpkhScript (P.hash160 (hdKeyAt P seed 49 a r i ni).pub)))) := by
  refine ⟨fun h => utf8_hex_ne (wpkhScript h) (by simp [wpkhScript]), ?_, ?_, ?_, ?_⟩
  · unfold createPayToScriptHash_PayToWitnessPublicKeyHash
    dsimp only
    rw [fromOutputScript_p2sh P _ _ (hh _)]
    rfl
  · exact ⟨_, by
      unfold createWalletsFromWIF
      exact walletsFromKey_eq P hh wif (getSelectedNetwork ni), rfl, rfl⟩
  · exact ⟨_, by
      unfold createWallets
      exact walletsFromKey_eq P hh _ (getSelectedNetwork ni), rfl⟩
  · rw [createHD_derives, hdAddressOf_49 P hh]
    rfl

theorem claimC1_witness :
    Hash160Len toyPrims ∧
    utf8Bytes (bytesToHexChars (wpkhScript (List.replicate 20 3))) ≠
      wpkhScript (List.replicate 20 3) ∧
    createPayToScriptHash_PayToWitnessPublicKeyHash toyPrims 5 none =
      some { p2shp2wpkh := toyPrims.b58enc (getSelectedNetwork none).scriptHash
               (toyPrims.hash160 (utf8Bytes (bytesToHexChars (wpkhScript (toyPrims.hash160
                 (toyPrims.ecFromWIF (toyPrims.makeRandom 5 (getSelectedNetwork none)).wifStr
                   (getSelectedNetwork none)).pub))))),
             witnessPubKeyHashHex := bytesToHexChars (wpkhScript (toyPrims.hash160
               (toyPrims.ecFromWIF (toyPrims.makeRandom 5 (getSelectedNetwork none)).wifStr
                 (getSelectedNetwork none)).pub)),
             wif := (toyPrims.makeRandom 5 (getSelectedNetwork none)).wifStr } :=
  ⟨toyPrims_hash160Len,
    (claimC1 toyPrims toyPrims_hash160Len 5 [7] [2] 0 0 0 none).1 (List.replicate 20 3),
    (claimC1 toyPrims toyPrims_hash160Len 5 [7] [2] 0 0 0 none).2.1⟩


theorem buildTx_error_eq (b : TxBuilder) (e : JsErr) (h : buildTx b = .error e) :
    e = .incompleteTxErr := by
  unfold buildTx at h
  split at h
  · exact absurd h (by simp)
  · injection h with h1
    exact h1.symm

theorem spendFromP2PKHBuilder_error_eq (P : Prims) (txh : Bytes) (out : Nat)
    (addr : JsStr) (amt : Nat) (wif ch : JsStr) (chAmt : Nat) (ni : Option String)
    (e : JsErr)
    (h : spendFromP2PKHBuilder P txh out addr amt wif ch chAmt ni = .error e) :
    e = .noMatchingScriptErr := by
  rw [spendFromP2PKHBuilder_eq] at h
  split at h
  · injection h with h1
    exact h1.symm
  · injection h with h1
    exact h1.symm
  · exact Except.noConfusion h

theorem spendFromP2WPKHBuilder_error_eq (P : Prims) (txh : Bytes) (out : Nat)
    (addr : JsStr) (amt : Nat) (wif ch : JsStr) (chAmt bal : Nat) (ni : Option String)
    (e : JsErr)
    (h : spendFromP2WPKHBuilder P txh out addr amt wif ch chAmt bal ni = .error e) :
    e = .noMatchingScriptErr := by
  rw [spendFromP2WPKHBuilder_eq] at h
  split at h
  · injection h with h1
    exact h1.symm
  · injection h with h1
    exact h1.symm
  · exact Except.noConfusion h

/-- Claim C2: contrary to the claim, the wrapper never throws its own
invalid address or invalid change address errors — the guards test the
Promise object returned by the async isValidAddress, and an object is
always truthy, so the else branches are dead code.  An undecodable
destination still aborts the call before signing and no transaction hex is
returned, but the error is the address decode failure thrown inside
addOutput, not the wrapper messages. -/
theorem claimC2 :
    (∀ (P : Prims) (addr : JsStr) (ni : Option String),
      jsTruthy (isValidAddress P addr ni) = true) ∧
    (∀ (P : Prims) (txh : Bytes) (out : Nat) (addr : JsStr) (amt : Nat)
        (wif ch : JsStr) (chAmt bal : Nat) (ni : Option String),
      toOutputScript P addr (getSelectedNetwork ni) = none →
        spendFromP2PKH P txh out addr amt wif ch chAmt ni =
          .error .noMatchingScriptErr ∧
        spendFromP2WPKH P txh out addr amt wif ch chAmt bal ni =
          .error .noMatchingScriptErr) ∧
    (∀ (P : Prims) (txh : Bytes) (out : Nat) (addr : JsStr) (amt : Nat)
        (wif ch : JsStr) (chAmt : Nat) (ni : Option String),
      spendFromP2PKH P txh out addr amt wif ch chAmt ni ≠ .error .invalidAddressErr ∧
      spendFromP2PKH P txh out addr amt wif ch chAmt ni ≠ .error .invalidChangeAddressErr) ∧
    (∀ (P : Prims) (txh : Bytes) (out : Nat) (addr : JsStr) (amt : Nat)
        (wif ch : JsStr) (chAmt bal : Nat) (ni : Option String),
      spendFromP2WPKH P txh out addr amt wif ch chAmt bal ni ≠ .error .invalidAddressErr ∧
      spendFromP2WPKH P txh out addr amt wif ch chAmt bal ni ≠ .error .invalidChangeAddressErr) := by
  refine ⟨fun _ _ _ => rfl, ?_, ?_, ?_⟩
  · intro P txh out addr amt wif ch chAmt bal ni haddr
    constructor
    · unfold spendFromP2PKH
      rw [spendFromP2PKHBuilder_eq, haddr]
    · unfold spendFromP2WPKH
      rw [spendFromP2WPKHBuilder_eq, haddr]
  · intro P txh out addr amt wif ch chAmt ni
    constructor <;>
    · intro hcon
      unfold spendFromP2PKH at hcon
      split at hcon
      · rename_i e heq
        injection hcon with h1
        subst h1
        exact JsErr.noConfusion
          (spendFromP2PKHBuilder_error_eq P txh out addr amt wif ch chAmt ni _ heq)
      · rename_i b heq
        split at hcon
        · rename_i e2 heq2
          injection hcon with h1
          subst h1
          exact JsErr.noConfusion (buildTx_error_eq b _ heq2)
        · exact Except.noConfusion hcon
  · intro P txh out addr amt wif ch chAmt bal ni
    constructor <;>
    · intro hcon
      unfold spendFromP2WPKH at hcon
      split at hcon
      · rename_i e heq
        injection hcon with h1
        subst h1
        exact JsErr.noConfusion
          (spendFromP2WPKHBuilder_error_eq P txh out addr amt wif ch chAmt bal ni _ heq)
      · rename_i b heq
        split at hcon
        · rename_i e2 heq2
          injection hcon with h1
          subst h1
          exact JsErr.noConfusion (buildTx_error_eq b _ heq2)
        · exact Except.noConfusion hcon

theorem claimC2_witness :
    toOutputScript toyPrims [] (getSelectedNetwork none) = none ∧
    spendFromP2PKH toyPrims [1] 0 [] 90000 [3] [] 9000 none =
      .error .noMatchingScriptErr ∧
    spendFromP2WPKH toyPrims [1] 0 [] 90000 [3] [] 9000 100000 none =
      .error .noMatchingScriptErr :=
  ⟨rfl, claimC2.2.1 toyPrims [1] 0 [] 90000 [3] [] 9000 100000 none rfl⟩

/-- Claim C3: every transaction the two spend pipelines build has exactly
one input and exactly two outputs — the destination output first and the
change output second — and the single signature is collected for input index
zero only; the legacy and bech32 entry points are pass-through aliases. -/
theorem claimC3 (P : Prims) (txh : Bytes) (out : Nat) (addr : JsStr) (amt : Nat)
    (wif ch : JsStr) (chAmt bal : Nat) (ni : Option String) :
    (∀ b : TxBuilder,
      spendFromP2PKHBuilder P txh out addr amt wif ch chAmt ni = .ok b →
        b.ins.length = 1 ∧
        (∃ s1 s2, toOutputScript P addr (getSelectedNetwork ni) = some s1 ∧
          toOutputScript P ch (getSelectedNetwork ni) = some s2 ∧
          b.outs = [{ value := amt, script := s1 }, { value := chAmt, script := s2 }]) ∧
        b.sigs.map SigRec.vin = [0]) ∧
    (∀ b : TxBuilder,
      spendFromP2WPKHBuilder P txh out addr amt wif ch chAmt bal ni = .ok b →
        b.ins.length = 1 ∧
        (∃ s1 s2, toOutputScript P addr (getSelectedNetwork ni) = some s1 ∧
          toOutputScript P ch (getSelectedNetwork ni) = some s2 ∧
          b.outs = [{ value := amt, script := s1 }, { value := chAmt, script := s2 }]) ∧
        b.sigs.map SigRec.vin = [0]) ∧
    spendFromLegacy P txh out addr amt wif ch chAmt ni =
      spendFromP2PKH P txh out addr amt wif ch chAmt ni ∧
    spendFromBech32 P txh out addr amt wif ch chAmt bal ni =
      spendFromP2WPKH P txh out addr amt wif ch chAmt bal ni := by
  refine ⟨?_, ?_, rfl, rfl⟩
  · intro b hb
    rw [spendFromP2PKHBuilder_eq] at hb
    split at hb
    · exact Except.noConfusion hb
    · exact Except.noConfusion hb
    · rename_i s1 s2 h1 h2
      injection hb with hb1
      subst hb1
      exact ⟨by simp [signInput], ⟨s1, s2, h1, h2, by simp [signInput]⟩, by simp [signInput]⟩
  · intro b hb
    rw [spendFromP2WPKHBuilder_eq] at hb
    split at hb
    · exact Except.noConfusion hb
    · exact Except.noConfusion hb
    · rename_i s1 s2 h1 h2
      injection hb with hb1
      subst hb1
      exact ⟨by simp [signInput], ⟨s1, s2, h1, h2, by simp [signInput]⟩, by simp [signInput]⟩

/-- Claim C5: when the bech32 spend pipeline signs its single input, the
digest recorded for input zero is the BIP143 witness sighash — the double
SHA-256 of the fixed preimage over version, hashed outpoints, hashed
sequences, the spent outpoint, the scriptCode derived from the witness
program, the committed amount, the sequence, hashed outputs, locktime and
sighash type — and the committed amount is exactly the balance argument. -/
theorem claimC5 (P : Prims) (hh : Hash160Len P) (txh : Bytes) (out : Nat)
    (addr : JsStr) (amt : Nat) (wif ch : JsStr) (chAmt bal : Nat)
    (ni : Option String) :
    ∀ b : TxBuilder,
      spendFromP2WPKHBuilder P txh out addr amt wif ch chAmt bal ni = .ok b →
        ∃ inp : TxIn, b.ins = [inp] ∧
          inp.prevOutScript =
            some (wpkhScript (P.hash160 (P.ecFromWIF wif (getSelectedNetwork ni)).pub)) ∧
          b.sigs = [{ vin := 0, digest := (bip143Digest P.sha256 b inp
            (p2pkhScript (P.hash160 (P.ecFromWIF wif (getSelectedNetwork ni)).pub))
            bal 1) }] := by
  intro b hb
  rw [spendFromP2WPKHBuilder_eq] at hb
  split at hb
  · exact Except.noConfusion hb
  · exact Except.noConfusion hb
  · rename_i s1 s2 h1 h2
    injection hb with hb1
    subst hb1
    refine ⟨{ hash := txh, index := out, sequence := defaultSequence,
              prevOutScript := (some (wpkhScript (P.hash160
                (P.ecFromWIF wif (getSelectedNetwork ni)).pub))) }, ?_, rfl, ?_⟩
    · simp [signInput]
    · unfold signInput
      simp only [List.getD_cons_zero]
      rw [if_pos (isWpkh_wpkh _ (hh _)), wpkh_extract _ (hh _)]
      simp [bip143Digest, hashPrevouts, hashSequences, hashOutputs]

/-- Claim C10: the previous output script attached to the single input of
the bech32 spend pipeline is always recomputed as the P2WPKH witness program
of the public key of the supplied WIF — the interface takes no script
argument, so a key and script mismatch cannot be presented through it. -/
theorem claimC10 (P : Prims) (txh : Bytes) (out : Nat) (addr : JsStr) (amt : Nat)
    (wif ch : JsStr) (chAmt bal : Nat) (ni : Option String) :
    ∀ b : TxBuilder,
      spendFromP2WPKHBuilder P txh out addr amt wif ch chAmt bal ni = .ok b →
        b.ins = [{ hash := txh, index := out, sequence := defaultSequence,
                   prevOutScript := (some (wpkhScript (P.hash160
                     (P.ecFromWIF wif (getSelectedNetwork ni)).pub))) }] := by
  intro b hb
  rw [spendFromP2WPKHBuilder_eq] at hb
  split at hb
  · exact Except.noConfusion hb
  · exact Except.noConfusion hb
  · injection hb with hb1
    subst hb1
    simp [signInput]

/-- A destination address decodable under the executable bundle on mainnet. -/
def cAddrMain1 : JsStr := toyB58enc 0 (List.replicate 20 7)

/-- A change address decodable under the executable bundle on mainnet. -/
def cAddrMain2 : JsStr := toyB58enc 5 (List.replicate 20 9)

/-- Fallback builder used when extracting a concrete successful run. -/
def fallbackBuilder : TxBuilder := newBuilder networksBitcoin

/-- The builder produced by a concrete successful legacy spend run. -/
def cBuilderL : TxBuilder :=
  (spendFromP2PKHBuilder toyPrims [1] 0 cAddrMain1 90000 [3] cAddrMain2
    9000 none).toOption.getD fallbackBuilder

/-- The builder produced by a concrete successful bech32 spend run. -/
def cBuilderW : TxBuilder :=
  (spendFromP2WPKHBuilder toyPrims [1] 0 cAddrMain1 90000 [3] cAddrMain2
    9000 100000 none).toOption.getD fallbackBuilder

theorem cBuilderL_run :
    spendFromP2PKHBuilder toyPrims [1] 0 cAddrMain1 90000 [3] cAddrMain2 9000 none =
      .ok cBuilderL := by
  rfl

theorem cBuilderW_run :
    spendFromP2WPKHBuilder toyPrims [1] 0 cAddrMain1 90000 [3] cAddrMain2 9000
      100000 none = .ok cBuilderW := by
  rfl

theorem claimC3_witness :
    spendFromP2PKHBuilder toyPrims [1] 0 cAddrMain1 90000 [3] cAddrMain2 9000 none =
      .ok cBuilderL ∧
    (cBuilderL.ins.length = 1 ∧
      (∃ s1 s2, toOutputScript toyPrims cAddrMain1 (getSelectedNetwork none) = some s1 ∧
        toOutputScript toyPrims cAddrMain2 (getSelectedNetwork none) = some s2 ∧
        cBuilderL.outs = [{ value := 90000, script := s1 }, { value := 9000, script := s2 }]) ∧
      cBuilderL.sigs.map SigRec.vin = [0]) :=
  ⟨cBuilderL_run,
    (claimC3 toyPrims [1] 0 cAddrMain1 90000 [3] cAddrMain2 9000 100000 none).1
      cBuilderL cBuilderL_run⟩

theorem claimC5_witness :
    Hash160Len toyPrims ∧
    (∃ inp : TxIn, cBuilderW.ins = [inp] ∧
      inp.prevOutScript = some (wpkhScript (toyPrims.hash160
        (toyPrims.ecFromWIF [3] (getSelectedNetwork none)).pub)) ∧
      cBuilderW.sigs = [{ vin := 0, digest := (bip143Digest toyPrims.sha256 cBuilderW inp
        (p2pkhScript (toyPrims.hash160
          (toyPrims.ecFromWIF [3] (getSelectedNetwork none)).pub)) 100000 1) }]) :=
  ⟨toyPrims_hash160Len,
    claimC5 toyPrims toyPrims_hash160Len [1] 0 cAddrMain1 90000 [3] cAddrMain2 9000
      100000 none cBuilderW cBuilderW_run⟩

theorem claimC10_witness :
    spendFromP2WPKHBuilder toyPrims [1] 0 cAddrMain1 90000 [3] cAddrMain2 9000
      100000 none = .ok cBuilderW ∧
    cBuilderW.ins = [{ hash := [1], index := 0, sequence := defaultSequence,
                       prevOutScript := (some (wpkhScript (toyPrims.hash160
                         (toyPrims.ecFromWIF [3] (getSelectedNetwork none)).pub))) }] :=
  ⟨cBuilderW_run,
    claimC10 toyPrims [1] 0 cAddrMain1 90000 [3] cAddrMain2 9000 100000 none
      cBuilderW cBuilderW_run⟩
